import Mathlib

/-!
# Verification of the Intan RHD2000 Opal Kelly interface (`sp/SignalProcessor.py`)

This file shallowly embeds the register-encoding and data-block-decoding
routines of `DESTester` in `src/sp/SignalProcessor.py` and proves/refutes
the frozen claims about them.

Modelling conventions:
* a byte buffer is a `List Nat` of byte values (each `< 256` where relevant);
  Python slices `buffer[i:i+k]` truncate at the end of the buffer, which is
  exactly `(buffer.drop i).take k`;
* `numpy.frombuffer(..., "<H")` over a slice is the list of little-endian
  16-bit words of the slice; a single `"<H"` read is the little-endian value
  of the 2-byte slice;
* the Opal Kelly wire-in registers form a state `Nat → Nat` (address to
  16-bit value); `SetWireInValue(addr, value, mask)` updates only the masked
  bits of one address;
* fallible decoding (`raise SyntaxError`, numpy reshape/indexing errors)
  is modelled with `Except DecodeError`.
-/

namespace SignalProcessor

/-- Little-endian value of a byte list (first byte is least significant). -/
def leVal : List Nat → Nat
  | [] => 0
  | b :: bs => b + 256 * leVal bs

/-- Python slice `buffer[i : i + len]` (truncates at the end of the list). -/
def sliceBytes (buffer : List Nat) (i len : Nat) : List Nat :=
  (buffer.drop i).take len

/-- `numpy.frombuffer(slice, "<H")`: successive little-endian 16-bit words. -/
def words16 : List Nat → List Nat
  | b0 :: b1 :: rest => (b0 + 256 * b1) :: words16 rest
  | _ => []

/-- A single `"<H"` read of the 2-byte slice starting at `i`. -/
def word16 (buffer : List Nat) (i : Nat) : Nat :=
  leVal (sliceBytes buffer i 2)

/-- `checkHeader`: parse the 8 bytes as a little-endian unsigned 64-bit word
(`numpy.dtype("<Q")`) and compare with the Rhythm magic number. -/
def checkHeader (header : List Nat) : Bool :=
  leVal header == 0xc691199927021942

/-- The little-endian byte encoding of the magic number
`0xc691199927021942`. -/
def magicHeaderBytes : List Nat :=
  [0x42, 0x19, 0x02, 0x27, 0x99, 0x19, 0x91, 0xc6]

/-- `dataBlockSize`: expected size in bytes of a single sample of data. -/
def dataBlockSize (numDataStreams : Nat) : Nat :=
  2 * (4 + 2 + numDataStreams * 36 + 8 + 2)

/-- The `sampleFrequencies` dictionary inside `setSampleFrequency`
(keys are the decimal rate strings of the Python source). -/
def sampleFrequencies (rate : Nat) : Option (Nat × Nat) :=
  if rate = 1000 then some (7, 125)
  else if rate = 1250 then some (7, 100)
  else if rate = 1500 then some (21, 250)
  else if rate = 2000 then some (14, 125)
  else if rate = 2500 then some (25, 250)
  else if rate = 3000 then some (21, 125)
  else if rate = 3330 then some (14, 75)
  else if rate = 4000 then some (28, 125)
  else if rate = 5000 then some (7, 25)
  else if rate = 6250 then some (7, 20)
  else if rate = 8000 then some (112, 250)
  else if rate = 10000 then some (14, 25)
  else if rate = 12500 then some (7, 10)
  else if rate = 15000 then some (21, 25)
  else if rate = 20000 then some (28, 25)
  else if rate = 25000 then some (35, 25)
  else if rate = 30000 then some (42, 25)
  else none

/-- The (M, D) table documented in the docstring of `setSampleFrequency`
(the "M D clkout frequency per-channel sample rate" table). -/
def documentedSampleFrequencies (rate : Nat) : Option (Nat × Nat) :=
  if rate = 1000 then some (7, 125)
  else if rate = 1250 then some (7, 100)
  else if rate = 1500 then some (21, 250)
  else if rate = 2000 then some (14, 125)
  else if rate = 2500 then some (35, 250)
  else if rate = 3000 then some (21, 125)
  else if rate = 3330 then some (14, 75)
  else if rate = 4000 then some (28, 125)
  else if rate = 5000 then some (7, 25)
  else if rate = 6250 then some (7, 20)
  else if rate = 8000 then some (112, 250)
  else if rate = 10000 then some (14, 25)
  else if rate = 12500 then some (7, 10)
  else if rate = 15000 then some (21, 25)
  else if rate = 20000 then some (28, 25)
  else if rate = 25000 then some (35, 25)
  else if rate = 30000 then some (42, 25)
  else none

/-- One call to the Opal Kelly front panel, as issued by the configurator. -/
inductive XemCall where
  | wireIn (addr value mask : Nat)
  | updateWireIns
  | trigger (addr bit : Nat)
deriving DecidableEq, Repr

/-- `setSampleFrequency(rate)`: dictionary lookup, then
`SetWireInValue(0x03, 256*M + D)` (full mask), `UpdateWireIns()`, and
`ActivateTriggerIn(0x40, 0)`.  A missing key raises `KeyError` while the
argument of `SetWireInValue` is being evaluated, so no call is made. -/
def setSampleFrequency (rate : Nat) : Option (List XemCall) :=
  match sampleFrequencies rate with
  | none => none
  | some md =>
    some [XemCall.wireIn 0x03 (256 * md.1 + md.2) 0xffffffff,
          XemCall.updateWireIns,
          XemCall.trigger 0x40 0]

/-- State of the wire-in registers: address to current 16-bit value. -/
def Regs : Type := Nat → Nat

/-- `SetWireInValue(addr, value, mask)`: only the masked bits of the
16-bit register at `addr` are replaced by the corresponding bits of
`value`; all other registers are untouched. -/
def setWireInValue (regs : Regs) (addr value mask : Nat) : Regs :=
  fun a =>
    if a = addr then (regs a &&& ((2 ^ 16 - 1) ^^^ mask)) ||| (value &&& mask)
    else regs a

/-- `setDataSource(stream, boardDataSource)`: pick the wire
`0x12 + (stream*4)//16`, shift the 4-bit source id into place and write it
with a matching `0x000f` mask. -/
def setDataSource (regs : Regs) (stream boardDataSource : Nat) : Regs :=
  let high_four := (stream * 4) / 16
  let bitshift := stream * 4 - high_four * 16
  let wire_in := 0x12 + high_four
  setWireInValue regs wire_in (boardDataSource <<< bitshift) (0xf <<< bitshift)

/-- The 4-bit data-source field of `stream` as held in the routing
registers. -/
def getStreamSourceField (regs : Regs) (stream : Nat) : Nat :=
  (regs (0x12 + (stream * 4) / 16) >>> (stream * 4 % 16)) &&& 0xf

/-- The SPI ports of `setCableDelay`. -/
inductive Port where
  | A | B | C | D
deriving DecidableEq, Repr

/-- The `shift` dictionary of `setCableDelay`. -/
def portShift : Port → Nat
  | Port.A => 0
  | Port.B => 4
  | Port.C => 8
  | Port.D => 12

/-- `delay = max(min(15, delay), 0)` of `setCableDelay`. -/
def clampDelay (delay : Int) : Int :=
  max (min 15 delay) 0

/-- The body of the `setCableDelay` loop for one `(port, delay)` item:
clamp the delay to `[0, 15]` and write it to the 4-bit field of wire
`0x04` selected by `portShift`, with a matching `0x000f` mask. -/
def setCableDelayPort (regs : Regs) (port : Port) (delay : Int) : Regs :=
  setWireInValue regs 0x04 ((clampDelay delay).toNat <<< portShift port)
    (0xf <<< portShift port)

/-- `setCableDelay(delaydict)`: iterate the loop body over the items. -/
def setCableDelay (regs : Regs) (delaydict : List (Port × Int)) : Regs :=
  delaydict.foldl (fun r pd => setCableDelayPort r pd.1 pd.2) regs

/-- The 4-bit cable-delay field of `port` in wire `0x04`. -/
def getCableDelayField (regs : Regs) (port : Port) : Nat :=
  (regs 0x04 >>> portShift port) &&& 0xf

/-- One decoded sample of `readDataBlock`: the entries the per-sample loop
appends/stores for the current `sample` index.  `aux` and `amp` are indexed
`stream` then `channel`, as `auxiliary_data[stream][channel][sample]` and
`amplifier_data[stream][channel][sample]` are. -/
structure Sample where
  time_stamp : Nat
  aux : Nat → Nat → Nat
  amp : Nat → Nat → Nat
  adc : Nat → Nat
  ttl_in : Nat
  ttl_out : Nat

/-- Failures of the per-sample decode loop: the explicit
`raise SyntaxError(...)` on a header mismatch (whose message interpolates
the raw 8-byte slice, and nothing else that varies), and the numpy
reshape/indexing errors of the amplifier de-interleave. -/
inductive DecodeError where
  | badHeader (raw : List Nat)
  | indexError
deriving DecidableEq, Repr

/-- One iteration of the `for sample in xrange(0, samplesPerDataBlock)`
loop of `readDataBlock`, starting with the cursor at `index`.

* 8-byte header checked by `checkHeader`, `index += 8`;
* timestamp read from the 2-byte slice `buffer[index:index+2]`
  (little-endian), `index += 4`;
* auxiliary loop: `for channel in 0..2: for stream in 0..n-1:` one `"<H"`
  word each, `index += 2` per word, so the `(channel, stream)` word sits at
  offset `2*(channel*n + stream)` from the start of the section;
* amplifier block: `2*num_channels*n` bytes taken as one `"<H"` slice; the
  numpy `reshape(-1, 2)` fails unless the word count is even, and the copy
  loop `numpifiedData[stream][channel]` (the transposed array) fails unless
  every visited `stream < 2` and `channel <` half the word count; the word
  stored for `(stream, channel)` is the one at position `2*channel + stream`;
  then `index += 2*num_channels*n`;
* filler skip `index += 2*n`; eight ADC words; one TTL-in and one TTL-out
  word. -/
def readOneSample (num_channels numDataStreams : Nat) (buffer : List Nat)
    (index : Nat) : Except DecodeError (Sample × Nat) :=
  if checkHeader (sliceBytes buffer index 8) = false then
    Except.error (DecodeError.badHeader (sliceBytes buffer index 8))
  else
    let i1 := index + 8
    let time_stamp := leVal (sliceBytes buffer i1 2)
    let i2 := i1 + 4
    let auxFn : Nat → Nat → Nat := fun stream channel =>
      word16 buffer (i2 + 2 * (channel * numDataStreams + stream))
    let i3 := i2 + 2 * (3 * numDataStreams)
    let ampWords := words16 (sliceBytes buffer i3 (2 * num_channels * numDataStreams))
    if ampWords.length % 2 ≠ 0 then Except.error DecodeError.indexError
    else if ¬ (∀ channel < num_channels, ∀ stream < numDataStreams,
        stream < 2 ∧ channel < ampWords.length / 2) then
      Except.error DecodeError.indexError
    else
      let ampFn : Nat → Nat → Nat := fun stream channel =>
        ampWords.getD (2 * channel + stream) 0
      let i4 := i3 + 2 * num_channels * numDataStreams
      let i5 := i4 + 2 * numDataStreams
      let adcFn : Nat → Nat := fun i => word16 buffer (i5 + 2 * i)
      let i6 := i5 + 2 * 8
      let ttlIn := word16 buffer i6
      let ttlOut := word16 buffer (i6 + 2)
      Except.ok (⟨time_stamp, auxFn, ampFn, adcFn, ttlIn, ttlOut⟩, i6 + 2 + 2)

/-- The sample loop of `readDataBlock` from cursor `index`, for a given
number of remaining samples.  A failing iteration propagates its exception:
no partial results survive. -/
def readDataBlockAux (num_channels numDataStreams : Nat) (buffer : List Nat) :
    Nat → Nat → Except DecodeError (List Sample)
  | _, 0 => Except.ok []
  | index, k + 1 =>
    match readOneSample num_channels numDataStreams buffer index with
    | Except.error e => Except.error e
    | Except.ok (s, i') =>
      match readDataBlockAux num_channels numDataStreams buffer i' k with
      | Except.error e => Except.error e
      | Except.ok rest => Except.ok (s :: rest)

/-- `readDataBlock(buffer, samplesPerDataBlock, numDataStreams)` with
`num_channels` taken from the object state: run the loop from cursor 0. -/
def readDataBlock (num_channels : Nat) (buffer : List Nat)
    (samplesPerDataBlock numDataStreams : Nat) : Except DecodeError (List Sample) :=
  readDataBlockAux num_channels numDataStreams buffer 0 samplesPerDataBlock

/-- Cursor position after decoding one sample, when it succeeds. -/
def sampleEndIndex (num_channels numDataStreams : Nat) (buffer : List Nat)
    (index : Nat) : Option Nat :=
  match readOneSample num_channels numDataStreams buffer index with
  | Except.ok (_, i') => some i'
  | Except.error _ => none

/-- The decoded timestamp of one sample, when decoding succeeds. -/
def decodedTimestamp (num_channels numDataStreams : Nat) (buffer : List Nat)
    (index : Nat) : Option Nat :=
  match readOneSample num_channels numDataStreams buffer index with
  | Except.ok (s, _) => some s.time_stamp
  | Except.error _ => none

/-- The decoded auxiliary word of one sample, when decoding succeeds. -/
def decodedAux (num_channels numDataStreams : Nat) (buffer : List Nat)
    (index stream channel : Nat) : Option Nat :=
  match readOneSample num_channels numDataStreams buffer index with
  | Except.ok (s, _) => some (s.aux stream channel)
  | Except.error _ => none

/-- The decoded amplifier word of one sample, when decoding succeeds. -/
def decodedAmp (num_channels numDataStreams : Nat) (buffer : List Nat)
    (index stream channel : Nat) : Option Nat :=
  match readOneSample num_channels numDataStreams buffer index with
  | Except.ok (s, _) => some (s.amp stream channel)
  | Except.error _ => none

/-- The error of a whole-buffer decode, when it fails. -/
def decodeResultError : Except DecodeError (List Sample) → Option DecodeError
  | Except.error e => some e
  | Except.ok _ => none

/-- The calls `init_experiment` issues while setting up the streams and the
remaining configuration, in order. -/
inductive InitCall where
  | enable (streamIndex : Nat)
  | source (stream boardDataSource : Nat)
  | continuousRun (continuousMode : Bool)
  | sampleFreq (rate : Nat)
  | cableDelay (port : Port) (delay : Int)
deriving DecidableEq, Repr

/-- The `settings` dictionary fields `init_experiment` consumes. -/
structure Settings where
  continuous_capture : Bool
  sample_rate : Nat
  num_data_streams : Nat
  cable_delay : List (Port × Int)

/-- `init_experiment(settings)`:
`for i in range(settings['num_data_streams'] + 1): enableDataStream(i);
setDataSource(i, i)`, then `setContinuousRunMode`, `setSampleFrequency`
and `setCableDelay`. -/
def init_experiment (settings : Settings) : List InitCall :=
  ((List.range (settings.num_data_streams + 1)).flatMap
    (fun i => [InitCall.enable i, InitCall.source i i]))
  ++ [InitCall.continuousRun settings.continuous_capture,
      InitCall.sampleFreq settings.sample_rate]
  ++ settings.cable_delay.map (fun pd => InitCall.cableDelay pd.1 pd.2)

/-- The stream indices enabled by a call sequence, in order. -/
def enabledStreams (calls : List InitCall) : List Nat :=
  calls.filterMap (fun c =>
    match c with
    | InitCall.enable i => some i
    | _ => none)

/-- The `(stream, source)` routing pairs issued by a call sequence. -/
def routedSources (calls : List InitCall) : List (Nat × Nat) :=
  calls.filterMap (fun c =>
    match c with
    | InitCall.source s d => some (s, d)
    | _ => none)

/-! ## Helper lemmas -/

lemma testBit_15 (j : Nat) : (15 : Nat).testBit j = decide (j < 4) := by
  have h15 : (15 : Nat) = 2 ^ 4 - 1 := by norm_num
  rw [h15, Nat.testBit_two_pow_sub_one]

lemma mask_testBit_false (s i : Nat) (h : i < s ∨ s + 4 ≤ i) :
    ((15 : Nat) <<< s).testBit i = false := by
  rw [Nat.testBit_shiftLeft, testBit_15]
  rcases h with h | h
  · have : ¬ (i ≥ s) := by omega
    simp [this]
  · have : ¬ (i - s < 4) := by omega
    simp [this]

lemma write_preserves_testBit (old v mask i : Nat) (h16 : i < 16)
    (hm : mask.testBit i = false) :
    ((old &&& ((2 ^ 16 - 1) ^^^ mask)) ||| (v &&& mask)).testBit i = old.testBit i := by
  have hOnes : Nat.testBit (2 ^ 16 - 1) i = true := by
    rw [Nat.testBit_two_pow_sub_one]
    simpa using h16
  have hOnes65535 : Nat.testBit 65535 i = true := by
    have h65 : (65535 : Nat) = 2 ^ 16 - 1 := by norm_num
    rw [h65]; exact hOnes
  simp [Nat.testBit_or, Nat.testBit_and, Nat.testBit_xor, hOnes, hOnes65535, hm]

lemma getNibble_congr (x y s : Nat) (h : ∀ j < 4, x.testBit (s + j) = y.testBit (s + j)) :
    (x >>> s) &&& 15 = (y >>> s) &&& 15 := by
  apply Nat.eq_of_testBit_eq
  intro j
  rw [Nat.testBit_and, Nat.testBit_and, Nat.testBit_shiftRight,
    Nat.testBit_shiftRight, testBit_15]
  by_cases hj : j < 4
  · rw [h j hj]
  · simp [hj]

lemma setWireInValue_apply_eq (regs : Regs) (addr value mask : Nat) :
    setWireInValue regs addr value mask addr
      = (regs addr &&& ((2 ^ 16 - 1) ^^^ mask)) ||| (value &&& mask) := by
  simp [setWireInValue]

lemma setWireInValue_apply_ne (regs : Regs) (addr value mask a : Nat) (h : a ≠ addr) :
    setWireInValue regs addr value mask a = regs a := by
  simp [setWireInValue, h]

lemma leVal_inj : ∀ a b : List Nat, a.length = b.length →
    (∀ x ∈ a, x < 256) → (∀ x ∈ b, x < 256) → leVal a = leVal b → a = b
  | [], [], _, _, _, _ => rfl
  | [], _ :: _, h, _, _, _ => by simp at h
  | _ :: _, [], h, _, _, _ => by simp at h
  | x :: xs, y :: ys, h, ha, hb, hv => by
    have hx : x < 256 := ha x (List.mem_cons_self _ _)
    have hy : y < 256 := hb y (List.mem_cons_self _ _)
    simp only [leVal] at hv
    have hxy : x = y ∧ leVal xs = leVal ys := by omega
    obtain ⟨h1, h2⟩ := hxy
    subst h1
    have hrest := leVal_inj xs ys (by simpa using h)
      (fun z hz => ha z (List.mem_cons_of_mem _ hz))
      (fun z hz => hb z (List.mem_cons_of_mem _ hz)) h2
    rw [hrest]

lemma enabledStreams_append (a b : List InitCall) :
    enabledStreams (a ++ b) = enabledStreams a ++ enabledStreams b := by
  simp [enabledStreams]

lemma routedSources_append (a b : List InitCall) :
    routedSources (a ++ b) = routedSources a ++ routedSources b := by
  simp [routedSources]

lemma enabledStreams_streamLoop (l : List Nat) :
    enabledStreams (l.flatMap (fun i => [InitCall.enable i, InitCall.source i i])) = l := by
  induction l with
  | nil => rfl
  | cons x xs ih =>
    simp only [List.flatMap_cons, enabledStreams, List.filterMap_append] at ih ⊢
    simp [ih]

lemma routedSources_streamLoop (l : List Nat) :
    routedSources (l.flatMap (fun i => [InitCall.enable i, InitCall.source i i]))
      = l.map (fun i => (i, i)) := by
  induction l with
  | nil => rfl
  | cons x xs ih =>
    simp only [List.flatMap_cons, routedSources, List.filterMap_append] at ih ⊢
    simp [ih]

lemma enabledStreams_cableDelays (l : List (Port × Int)) :
    enabledStreams (l.map (fun pd => InitCall.cableDelay pd.1 pd.2)) = [] := by
  induction l with
  | nil => rfl
  | cons x xs ih => simpa [enabledStreams] using ih

lemma routedSources_cableDelays (l : List (Port × Int)) :
    routedSources (l.map (fun pd => InitCall.cableDelay pd.1 pd.2)) = [] := by
  induction l with
  | nil => rfl
  | cons x xs ih => simpa [routedSources] using ih

lemma enabledStreams_tailCalls (b : Bool) (r : Nat) (l : List (Port × Int)) :
    enabledStreams (InitCall.continuousRun b :: InitCall.sampleFreq r ::
      l.map (fun pd => InitCall.cableDelay pd.1 pd.2)) = [] := by
  have h := enabledStreams_cableDelays l
  simp only [enabledStreams, List.filterMap_cons] at h ⊢
  exact h

lemma routedSources_tailCalls (b : Bool) (r : Nat) (l : List (Port × Int)) :
    routedSources (InitCall.continuousRun b :: InitCall.sampleFreq r ::
      l.map (fun pd => InitCall.cableDelay pd.1 pd.2)) = [] := by
  have h := routedSources_cableDelays l
  simp only [routedSources, List.filterMap_cons] at h ⊢
  exact h

lemma readOneSample_ok_elim (C n : Nat) (buffer : List Nat) (index : Nat)
    (s : Sample) (i' : Nat)
    (h : readOneSample C n buffer index = Except.ok (s, i')) :
    checkHeader (sliceBytes buffer index 8) = true
    ∧ s.time_stamp = leVal (sliceBytes buffer (index + 8) 2)
    ∧ (∀ stream channel, s.aux stream channel
        = word16 buffer (index + 8 + 4 + 2 * (channel * n + stream)))
    ∧ (∀ stream channel, s.amp stream channel
        = (words16 (sliceBytes buffer (index + 8 + 4 + 2 * (3 * n)) (2 * C * n))).getD
            (2 * channel + stream) 0)
    ∧ i' = index + 32 + 8 * n + 2 * (C * n) := by
  unfold readOneSample at h
  split at h
  · exact absurd h (by simp)
  · next hHdr =>
    dsimp only [] at h
    split at h
    · exact absurd h (by simp)
    · split at h
      · exact absurd h (by simp)
      · simp only [Except.ok.injEq, Prod.mk.injEq] at h
        obtain ⟨hs, hi⟩ := h
        subst hs
        refine ⟨by simpa using hHdr, rfl, fun stream channel => rfl,
          fun stream channel => rfl, ?_⟩
        have hmul : 2 * C * n = 2 * (C * n) := by ring
        omega

lemma sampleEndIndex_some_elim (C n : Nat) (buffer : List Nat) (index i' : Nat)
    (h : sampleEndIndex C n buffer index = some i') :
    ∃ s, readOneSample C n buffer index = Except.ok (s, i') := by
  unfold sampleEndIndex at h
  split at h
  · next s j heq =>
    refine ⟨s, ?_⟩
    simp only [Option.some.injEq] at h
    rw [heq, h]
  · exact absurd h (by simp)

/-! ## Claims -/

/-- C6: `dataBlockSize` matches the closed form `2*(4+2+n*36+8+2)` exactly
(in particular `dataBlockSize 2 = 176`) and is strictly monotonically
increasing in the number of data streams. -/
theorem dataBlockSize_formula_and_strictMono :
    (∀ n, dataBlockSize n = 2 * (4 + 2 + n * 36 + 8 + 2))
    ∧ dataBlockSize 2 = 176
    ∧ ∀ m n, m < n → dataBlockSize m < dataBlockSize n := by
  refine ⟨fun n => rfl, rfl, fun m n h => ?_⟩
  simp only [dataBlockSize]
  omega

/-- Witness for C6: the strict-monotonicity hypothesis discharged at 1 < 2. -/
theorem dataBlockSize_formula_and_strictMono_witness :
    dataBlockSize 1 < dataBlockSize 2 :=
  dataBlockSize_formula_and_strictMono.2.2 1 2 (by decide)

/-- C1 (code bug): the `sampleFrequencies` dictionary of
`setSampleFrequency` maps 2500 to (M=25, D=250), while the (M, D) table in
the docstring of the same function says 2.50 kS/s needs (M=35, D=250); the
register 0x03 therefore receives `256*25 + 250 = 6650` instead of the
documented `256*35 + 250 = 9210`.  Every other supported rate matches the
documented table, and an unsupported rate fails the dictionary lookup
(`KeyError`) before any front-panel call. -/
theorem setSampleFrequency_2500_contradicts_documentation :
    sampleFrequencies 2500 = some (25, 250)
    ∧ documentedSampleFrequencies 2500 = some (35, 250)
    ∧ setSampleFrequency 2500
        = some [XemCall.wireIn 0x03 (256 * 25 + 250) 0xffffffff,
                XemCall.updateWireIns, XemCall.trigger 0x40 0]
    ∧ (∀ rate, rate ≠ 2500 → sampleFrequencies rate = documentedSampleFrequencies rate)
    ∧ (∀ rate, sampleFrequencies rate = none → setSampleFrequency rate = none) := by
  refine ⟨rfl, rfl, rfl, ?_, ?_⟩
  · intro rate h
    by_cases h1 : rate = 1000
    · subst h1; rfl
    by_cases h2 : rate = 1250
    · subst h2; rfl
    by_cases h3 : rate = 1500
    · subst h3; rfl
    by_cases h4 : rate = 2000
    · subst h4; rfl
    by_cases h5 : rate = 3000
    · subst h5; rfl
    by_cases h6 : rate = 3330
    · subst h6; rfl
    by_cases h7 : rate = 4000
    · subst h7; rfl
    by_cases h8 : rate = 5000
    · subst h8; rfl
    by_cases h9 : rate = 6250
    · subst h9; rfl
    by_cases h10 : rate = 8000
    · subst h10; rfl
    by_cases h11 : rate = 10000
    · subst h11; rfl
    by_cases h12 : rate = 12500
    · subst h12; rfl
    by_cases h13 : rate = 15000
    · subst h13; rfl
    by_cases h14 : rate = 20000
    · subst h14; rfl
    by_cases h15 : rate = 25000
    · subst h15; rfl
    by_cases h16 : rate = 30000
    · subst h16; rfl
    simp only [sampleFrequencies, documentedSampleFrequencies, if_neg h1,
      if_neg h2, if_neg h3, if_neg h4, if_neg h, if_neg h5, if_neg h6,
      if_neg h7, if_neg h8, if_neg h9, if_neg h10, if_neg h11, if_neg h12,
      if_neg h13, if_neg h14, if_neg h15, if_neg h16]
  · intro rate h
    unfold setSampleFrequency
    rw [h]

/-- Witness for C1's theorem: its hypotheses discharged at rates 30000 and
999. -/
theorem setSampleFrequency_2500_contradicts_documentation_witness :
    sampleFrequencies 30000 = documentedSampleFrequencies 30000
    ∧ setSampleFrequency 999 = none :=
  ⟨setSampleFrequency_2500_contradicts_documentation.2.2.2.1 30000 (by decide),
   setSampleFrequency_2500_contradicts_documentation.2.2.2.2 999 (by decide)⟩

/-- C7: on any 8-byte input, `checkHeader` accepts exactly the little-endian
encoding of the magic constant `0xc691199927021942` — equivalently, exactly
when the little-endian 64-bit value of the bytes equals the magic constant —
so any input differing in at least one bit is rejected. -/
theorem checkHeader_iff_magic (header : List Nat) (hlen : header.length = 8)
    (hbytes : ∀ b ∈ header, b < 256) :
    (checkHeader header = true ↔ header = magicHeaderBytes)
    ∧ (checkHeader header = true ↔ leVal header = 0xc691199927021942) := by
  have hiff : checkHeader header = true ↔ leVal header = 0xc691199927021942 := by
    simp [checkHeader]
  refine ⟨?_, hiff⟩
  rw [hiff]
  constructor
  · intro hv
    refine leVal_inj header magicHeaderBytes ?_ hbytes (by decide) ?_
    · rw [hlen]; rfl
    · rw [hv]; decide
  · intro h
    rw [h]; decide

/-- Witness for C7: the magic byte string itself is accepted. -/
theorem checkHeader_iff_magic_witness :
    checkHeader magicHeaderBytes = true :=
  (checkHeader_iff_magic magicHeaderBytes (by decide) (by decide)).1.mpr rfl

/-- C10: `init_experiment` iterates `range(num_data_streams + 1)`, so it
enables and routes streams 0 through `num_data_streams` inclusive — one
stream more than the configured count (`num_data_streams = 2` touches
streams 0, 1 and 2). -/
theorem init_experiment_enables_one_extra_stream (settings : Settings) :
    enabledStreams (init_experiment settings)
      = List.range (settings.num_data_streams + 1)
    ∧ routedSources (init_experiment settings)
      = (List.range (settings.num_data_streams + 1)).map (fun i => (i, i))
    ∧ (enabledStreams (init_experiment settings)).length
      = settings.num_data_streams + 1 := by
  have htail1 : enabledStreams (init_experiment settings)
      = List.range (settings.num_data_streams + 1) := by
    simp [init_experiment, enabledStreams_append, enabledStreams_streamLoop,
      enabledStreams_tailCalls]
  have htail2 : routedSources (init_experiment settings)
      = (List.range (settings.num_data_streams + 1)).map (fun i => (i, i)) := by
    simp [init_experiment, routedSources_append, routedSources_streamLoop,
      routedSources_tailCalls]
  refine ⟨htail1, htail2, ?_⟩
  rw [htail1, List.length_range]

/-- An all-zero 8-byte string: a corrupted header. -/
def zeroHeader : List Nat := List.replicate 8 0

/-- Two 32-byte samples (`numDataStreams = 0`, `num_channels = 0`):
corrupted header at sample 0, valid magic at sample 1. -/
def corruptFirstBuf : List Nat :=
  zeroHeader ++ List.replicate 24 0 ++ magicHeaderBytes ++ List.replicate 24 0

/-- Two 32-byte samples: valid magic at sample 0, corrupted header at
sample 1. -/
def corruptSecondBuf : List Nat :=
  magicHeaderBytes ++ List.replicate 24 0 ++ zeroHeader ++ List.replicate 24 0

/-- A one-sample buffer for `num_channels = 64`, `numDataStreams = 2` (the
`example_settings` geometry): magic header then 296 zero bytes. -/
def exampleBuf : List Nat := magicHeaderBytes ++ List.replicate 296 0

/-- A one-sample buffer for `num_channels = 32`, `numDataStreams = 2` (the
RHD2000 geometry assumed by `dataBlockSize`): 176 bytes. -/
def rhdBuf : List Nat := magicHeaderBytes ++ List.replicate 168 0

/-- A one-sample buffer for `num_channels = 1`, `numDataStreams = 4`: valid
magic header and a full 4-word amplifier section. -/
def c3Buf : List Nat := magicHeaderBytes ++ List.replicate 36 0

/-- A one-sample buffer for `num_channels = 1`, `numDataStreams = 2` whose
amplifier section holds the words `[10, 20]`. -/
def ampDemoBuf : List Nat := magicHeaderBytes ++ List.replicate 16 0 ++ [10, 0, 20, 0]

/-- A one-sample buffer for `num_channels = 0`, `numDataStreams = 0` whose
timestamp bytes are `[7, 1]` (value 263). -/
def tsDemoBuf : List Nat := magicHeaderBytes ++ [7, 1] ++ List.replicate 22 0

set_option maxRecDepth 100000 in
/-- C2 counterexample: with the repository's own `example_settings`
geometry (`num_channels = 64`, `num_data_streams = 2`), one decoded sample
advances the cursor by 304 bytes, not `dataBlockSize 2 = 176`: the claimed
per-sample total only matches the block-size formula when
`num_channels = 32`. -/
theorem sample_advance_counterexample :
    sampleEndIndex 64 2 exampleBuf 0 = some 304
    ∧ dataBlockSize 2 = 176
    ∧ (304 : Nat) ≠ 176 := by
  refine ⟨by decide, rfl, by decide⟩

/-- C2 (amended): with `num_channels = 32` (the 32 amplifier channels per
stream that the `36 = 32 + 3 + 1` comment of `dataBlockSize` assumes),
every successfully decoded sample advances the cursor by exactly
`dataBlockSize numDataStreams` bytes. -/
theorem sample_advance_eq_dataBlockSize (n : Nat) (buffer : List Nat)
    (index i' : Nat) (h : sampleEndIndex 32 n buffer index = some i') :
    i' = index + dataBlockSize n ∧ i' - index = dataBlockSize n := by
  obtain ⟨s, hok⟩ := sampleEndIndex_some_elim 32 n buffer index i' h
  have helim := readOneSample_ok_elim 32 n buffer index s i' hok
  have hi := helim.2.2.2.2
  unfold dataBlockSize
  omega

set_option maxRecDepth 100000 in
/-- Witness for C2's amended theorem: a 2-stream, 32-channel sample decodes
ending at byte 176 = `dataBlockSize 2`. -/
theorem sample_advance_eq_dataBlockSize_witness :
    (176 : Nat) = 0 + dataBlockSize 2 :=
  (sample_advance_eq_dataBlockSize 2 rhdBuf 0 176 (by decide)).1

/-- C3 counterexample: for `numDataStreams = 4`, `num_channels = 1` and a
well-formed buffer (valid header, full 4-word amplifier block, so the word
at the claimed position `channel*numDataStreams + stream` exists), decoding
raises the numpy indexing error of the hardcoded `reshape(-1, 2).T` instead
of de-interleaving: the claim fails for stream counts other than 2. -/
theorem amplifier_deinterleave_counterexample :
    decodeResultError (readDataBlock 1 c3Buf 1 4) = some DecodeError.indexError
    ∧ checkHeader (sliceBytes c3Buf 0 8) = true
    ∧ (words16 (sliceBytes c3Buf 36 8)).length = 4
    ∧ decodedAmp 1 4 c3Buf 0 2 0 = none := by
  refine ⟨by decide, by decide, by decide, by decide⟩

/-- C3 (amended): for `numDataStreams = 2` — the only stream count the
hardcoded `reshape(-1, 2).T` de-interleaves — a decoded sample's amplifier
value for `(stream, channel)` is the word at position
`channel * 2 + stream` of the contiguous 16-bit little-endian amplifier
block read at cursor offset 24. -/
theorem amplifier_deinterleave_two_streams (C : Nat) (buffer : List Nat)
    (index i' : Nat) (h : sampleEndIndex C 2 buffer index = some i')
    (stream channel : Nat) (hs : stream < 2) (hc : channel < C) :
    decodedAmp C 2 buffer index stream channel
      = some ((words16 (sliceBytes buffer (index + 24) (2 * C * 2))).getD
          (channel * 2 + stream) 0) := by
  obtain ⟨s, hok⟩ := sampleEndIndex_some_elim C 2 buffer index i' h
  have helim := readOneSample_ok_elim C 2 buffer index s i' hok
  have hamp := helim.2.2.2.1 stream channel
  unfold decodedAmp
  rw [hok]
  show some (s.amp stream channel)
    = some ((words16 (sliceBytes buffer (index + 24) (2 * C * 2))).getD
        (channel * 2 + stream) 0)
  rw [hamp]
  have hoff : index + 8 + 4 + 2 * (3 * 2) = index + 24 := by omega
  have hpos : 2 * channel + stream = channel * 2 + stream := by ring
  rw [hoff, hpos]

/-- Witness for C3's amended theorem: in a 2-stream, 1-channel sample with
amplifier words `[10, 20]`, stream 1 of channel 0 decodes to word
position `0*2 + 1`, i.e. the value 20. -/
theorem amplifier_deinterleave_two_streams_witness :
    decodedAmp 1 2 ampDemoBuf 0 1 0
      = some ((words16 (sliceBytes ampDemoBuf (0 + 24) (2 * 1 * 2))).getD
          (0 * 2 + 1) 0)
    ∧ decodedAmp 1 2 ampDemoBuf 0 1 0 = some 20 :=
  ⟨amplifier_deinterleave_two_streams 1 ampDemoBuf 0 52 (by decide) 1 0
      (by decide) (by decide),
   by decide⟩

/-- C4: whenever a sample decodes, its timestamp is the little-endian value
of the 2-byte slice `buffer[index+8 : index+10]`, while the cursor advances
4 bytes past the header: the auxiliary section of the same sample is read
starting at `index + 12`. -/
theorem timestamp_reads_two_bytes_advances_four (C n : Nat) (buffer : List Nat)
    (index i' : Nat) (h : sampleEndIndex C n buffer index = some i') :
    decodedTimestamp C n buffer index
      = some (leVal (sliceBytes buffer (index + 8) 2))
    ∧ ∀ stream channel, decodedAux C n buffer index stream channel
        = some (word16 buffer (index + 12 + 2 * (channel * n + stream))) := by
  obtain ⟨s, hok⟩ := sampleEndIndex_some_elim C n buffer index i' h
  have helim := readOneSample_ok_elim C n buffer index s i' hok
  constructor
  · unfold decodedTimestamp
    rw [hok]
    show some s.time_stamp = some (leVal (sliceBytes buffer (index + 8) 2))
    rw [helim.2.1]
  · intro stream channel
    unfold decodedAux
    rw [hok]
    show some (s.aux stream channel)
      = some (word16 buffer (index + 12 + 2 * (channel * n + stream)))
    rw [helim.2.2.1 stream channel]

/-- Witness for C4: a concrete sample whose timestamp bytes are `[7, 1]`
decodes to timestamp 263 with the auxiliary section starting at byte 12. -/
theorem timestamp_reads_two_bytes_advances_four_witness :
    decodedTimestamp 0 0 tsDemoBuf 0 = some (leVal (sliceBytes tsDemoBuf (0 + 8) 2))
    ∧ decodedTimestamp 0 0 tsDemoBuf 0 = some 263
    ∧ decodedAux 0 0 tsDemoBuf 0 0 0 = some (word16 tsDemoBuf (0 + 12 + 2 * (0 * 0 + 0))) :=
  ⟨(timestamp_reads_two_bytes_advances_four 0 0 tsDemoBuf 0 32 (by decide)).1,
   by decide,
   (timestamp_reads_two_bytes_advances_four 0 0 tsDemoBuf 0 32 (by decide)).2 0 0⟩

/-- C5 counterexample: the `SyntaxError` raised on a header mismatch
interpolates only the raw 8 header bytes, not the sample index: two buffers
failing at different sample indices (sample 0 of `corruptFirstBuf`, sample 1
of `corruptSecondBuf`) with the same corrupted bytes produce identical
errors, so the error cannot identify which sample failed; nor are the
already-decoded samples retrievable. -/
theorem header_error_lacks_sample_index :
    decodeResultError (readDataBlock 0 corruptFirstBuf 2 0)
      = some (DecodeError.badHeader zeroHeader)
    ∧ decodeResultError (readDataBlock 0 corruptSecondBuf 2 0)
      = some (DecodeError.badHeader zeroHeader)
    ∧ sampleEndIndex 0 0 corruptFirstBuf 0 = none
    ∧ sampleEndIndex 0 0 corruptSecondBuf 0 = some 32 := by
  refine ⟨by decide, by decide, by decide, by decide⟩

/-- C5 (amended): a header mismatch at any sample aborts the decode of the
whole buffer with the `badHeader` error carrying the raw 8 observed bytes
(no resynchronization, no partial results): a first-sample mismatch fails
immediately, and an error in the remaining samples propagates unchanged. -/
theorem readDataBlock_aborts_on_bad_header (C n : Nat) (buffer : List Nat)
    (index k : Nat) :
    (checkHeader (sliceBytes buffer index 8) = false →
      readDataBlockAux C n buffer index (k + 1)
        = Except.error (DecodeError.badHeader (sliceBytes buffer index 8)))
    ∧ (∀ i' e, sampleEndIndex C n buffer index = some i' →
        readDataBlockAux C n buffer i' k = Except.error e →
        readDataBlockAux C n buffer index (k + 1) = Except.error e) := by
  constructor
  · intro hbad
    have h1 : readOneSample C n buffer index
        = Except.error (DecodeError.badHeader (sliceBytes buffer index 8)) := by
      unfold readOneSample
      rw [if_pos hbad]
    unfold readDataBlockAux
    rw [h1]
  · intro i' e hok hrest
    obtain ⟨s, hs⟩ := sampleEndIndex_some_elim C n buffer index i' hok
    unfold readDataBlockAux
    rw [hs]
    show (match readDataBlockAux C n buffer i' k with
      | Except.error e0 => Except.error e0
      | Except.ok rest => Except.ok (s :: rest)) = Except.error e
    rw [hrest]

/-- A register file holding an arbitrary nonzero pattern everywhere. -/
def demoRegs : Regs := fun _ => 0x1234

/-- C8: `setDataSource` writes wire `0x12 + (stream*4)//16` with the source
id shifted to bit offset `(stream*4) mod 16` under a `0x000f` mask shifted
by the same offset; every other register, and every bit of the target
register outside the 4-bit field, keeps its value; in particular writing
stream 5's source and then stream 1's source leaves stream 5's field
unchanged. -/
theorem setDataSource_masked_field_write (regs : Regs) (stream src x y : Nat) :
    setDataSource regs stream src
      = setWireInValue regs (0x12 + stream * 4 / 16) (src <<< (stream * 4 % 16))
          (0xf <<< (stream * 4 % 16))
    ∧ (∀ a, a ≠ 0x12 + stream * 4 / 16 → setDataSource regs stream src a = regs a)
    ∧ (∀ i, i < 16 → (i < stream * 4 % 16 ∨ stream * 4 % 16 + 4 ≤ i) →
        (setDataSource regs stream src (0x12 + stream * 4 / 16)).testBit i
          = (regs (0x12 + stream * 4 / 16)).testBit i)
    ∧ getStreamSourceField (setDataSource (setDataSource regs 5 x) 1 y) 5
        = getStreamSourceField (setDataSource regs 5 x) 5 := by
  have hshift : stream * 4 - stream * 4 / 16 * 16 = stream * 4 % 16 := by omega
  have hdef : setDataSource regs stream src
      = setWireInValue regs (0x12 + stream * 4 / 16) (src <<< (stream * 4 % 16))
          (0xf <<< (stream * 4 % 16)) := by
    show setWireInValue regs (0x12 + stream * 4 / 16)
        (src <<< (stream * 4 - stream * 4 / 16 * 16))
        (0xf <<< (stream * 4 - stream * 4 / 16 * 16))
      = setWireInValue regs (0x12 + stream * 4 / 16) (src <<< (stream * 4 % 16))
          (0xf <<< (stream * 4 % 16))
    rw [hshift]
  refine ⟨hdef, ?_, ?_, ?_⟩
  · intro a ha
    rw [hdef]
    exact setWireInValue_apply_ne regs _ _ _ a ha
  · intro i h16 hout
    rw [hdef, setWireInValue_apply_eq]
    exact write_preserves_testBit _ _ _ i h16 (mask_testBit_false _ i hout)
  · unfold getStreamSourceField
    have h1 : setDataSource (setDataSource regs 5 x) 1 y (0x12 + 5 * 4 / 16)
        = setDataSource regs 5 x (0x12 + 5 * 4 / 16) := by
      show setWireInValue (setDataSource regs 5 x) 0x12 (y <<< 4) (0xf <<< 4)
          (0x12 + 5 * 4 / 16) = setDataSource regs 5 x (0x12 + 5 * 4 / 16)
      exact setWireInValue_apply_ne _ _ _ _ _ (by decide)
    rw [h1]

/-- Witness for C8's theorem: its hypotheses discharged at stream 5, source
3, on the non-target wire 0x14 and on bit 0 of the target wire 0x13. -/
theorem setDataSource_masked_field_write_witness :
    setDataSource demoRegs 5 3 0x14 = demoRegs 0x14
    ∧ (setDataSource demoRegs 5 3 (0x12 + 5 * 4 / 16)).testBit 0
      = (demoRegs (0x12 + 5 * 4 / 16)).testBit 0 :=
  ⟨(setDataSource_masked_field_write demoRegs 5 3 0 0).2.1 0x14 (by decide),
   (setDataSource_masked_field_write demoRegs 5 3 0 0).2.2.1 0 (by decide)
      (Or.inl (by decide))⟩

/-- C9: for every port and integer delay, the `setCableDelay` loop body
clamps the delay into [0, 15] (leaving in-range values unchanged), writes
it into the 4-bit field of wire 0x04 at the port's bit offset
({A:0, B:4, C:8, D:12}) under a matching `0x000f` mask, alters no other
register, and never clobbers another port's field. -/
theorem setCableDelay_clamps_and_preserves (regs : Regs) (port : Port)
    (delay : Int) :
    (0 ≤ clampDelay delay ∧ clampDelay delay ≤ 15
      ∧ (0 ≤ delay → delay ≤ 15 → clampDelay delay = delay))
    ∧ setCableDelayPort regs port delay
        = setWireInValue regs 0x04 ((clampDelay delay).toNat <<< portShift port)
            (0xf <<< portShift port)
    ∧ (∀ a, a ≠ 0x04 → setCableDelayPort regs port delay a = regs a)
    ∧ (∀ p', p' ≠ port →
        getCableDelayField (setCableDelayPort regs port delay) p'
          = getCableDelayField regs p') := by
  refine ⟨⟨?_, ?_, ?_⟩, rfl, ?_, ?_⟩
  · unfold clampDelay; omega
  · unfold clampDelay; omega
  · intro h0 h15; unfold clampDelay; omega
  · intro a ha
    exact setWireInValue_apply_ne regs _ _ _ a ha
  · intro p' hp'
    unfold getCableDelayField setCableDelayPort
    rw [setWireInValue_apply_eq]
    apply getNibble_congr
    intro j hj
    apply write_preserves_testBit
    · cases p' <;> simp only [portShift] <;> omega
    · apply mask_testBit_false
      cases port <;> cases p' <;> first
        | exact absurd rfl hp'
        | (simp only [portShift]; omega)

/-- Witness for C9's theorem: clamping at delay 20 and 5, and port A's
write leaving port B's field intact. -/
theorem setCableDelay_clamps_and_preserves_witness :
    clampDelay 20 = 15 ∧ clampDelay 5 = 5
    ∧ getCableDelayField (setCableDelayPort demoRegs Port.A 20) Port.B
      = getCableDelayField demoRegs Port.B :=
  ⟨by decide,
   (setCableDelay_clamps_and_preserves demoRegs Port.A 5).1.2.2 (by decide)
      (by decide),
   (setCableDelay_clamps_and_preserves demoRegs Port.A 20).2.2.2 Port.B
      (by decide)⟩

/-- Witness for C5's amended theorem: both hypotheses discharged on the
concrete corrupted buffers. -/
theorem readDataBlock_aborts_on_bad_header_witness :
    readDataBlockAux 0 0 corruptFirstBuf 0 2
      = Except.error (DecodeError.badHeader (sliceBytes corruptFirstBuf 0 8))
    ∧ readDataBlockAux 0 0 corruptSecondBuf 0 2
      = Except.error (DecodeError.badHeader zeroHeader) :=
  ⟨(readDataBlock_aborts_on_bad_header 0 0 corruptFirstBuf 0 1).1 (by decide),
   (readDataBlock_aborts_on_bad_header 0 0 corruptSecondBuf 0 1).2 32
      (DecodeError.badHeader zeroHeader) (by decide)
      ((readDataBlock_aborts_on_bad_header 0 0 corruptSecondBuf 32 0).1
        (by decide))⟩

end SignalProcessor
